import Mathlib

/-!
Verification of the BabaMuskBot stock/crypto bot (baba_musk_bot/app.py).

Shallow embedding conventions:
* Dates are day indices (`Int`), with day 0 a Monday; `d % 7` is the weekday
  (0 = Monday .. 6 = Sunday), matching `date.weekday()` in the source.
  `dateStr` renders a date by its index (the source uses `strftime`).
* HTTP interactions are modelled by outcome values supplied by the
  environment: a lookup outcome per symbol, a market-status probe per date,
  an attempt outcome per retry attempt, and a Coinbase response per pairing.
* JSON field values are modelled by `PyVal`; Python `float(...)` is modelled
  by `pyFloat` (numbers, booleans, and decimal numeral strings convert;
  anything else fails). Prices are rationals.
* `emoji.emojize` is an external presentation-layer transformation; strings
  are modelled before emoji substitution (the alias tokens such as
  ":arrow_up_small:" are kept verbatim).
-/

namespace BabaMuskBot

/-! ### JSON values and Python float conversion -/

/-- A JSON field value as it can reach `float(...)` in the source. -/
inductive PyVal where
  | num (q : ℚ)
  | str (s : String)
  | bool (b : Bool)
  | null
deriving DecidableEq

/-- Numeric value of a list of decimal digit characters. -/
def digitsToNat (cs : List Char) : Nat :=
  cs.foldl (fun a c => 10 * a + (c.toNat - 48)) 0

/-- All characters are decimal digits. -/
def allDigits (cs : List Char) : Bool :=
  cs.all Char.isDigit

/-- Model of `str.upper()`, character by character (kernel-evaluable,
unlike `String.toUpper`). -/
def toUpperStr (s : String) : String := String.mk (s.data.map Char.toUpper)

/-- Strip leading and trailing whitespace, as `float(...)` does on its
string argument. -/
def trimList (cs : List Char) : List Char :=
  ((cs.dropWhile Char.isWhitespace).reverse.dropWhile Char.isWhitespace).reverse

/-- Unsigned decimal numeral: digits with at most one point, at least one
digit in total (models the numerals accepted by Python `float`). -/
def parseUnsigned (cs : List Char) : Option ℚ :=
  match cs.splitOn '.' with
  | [ip] =>
      if ip ≠ [] ∧ allDigits ip = true then some (digitsToNat ip : ℚ) else none
  | [ip, fp] =>
      if (ip ≠ [] ∨ fp ≠ []) ∧ allDigits ip = true ∧ allDigits fp = true then
        some ((digitsToNat ip : ℚ) + (digitsToNat fp : ℚ) / ((10 : ℚ) ^ fp.length))
      else none
  | _ => none

/-- Model of Python `float` applied to a string: optional sign then an
unsigned decimal numeral, surrounding whitespace ignored. -/
def parseDecimal (s : String) : Option ℚ :=
  match trimList s.data with
  | '+' :: rest => parseUnsigned rest
  | '-' :: rest => (parseUnsigned rest).map (fun q => -q)
  | cs => parseUnsigned cs

/-- Model of Python `float(v)`: numbers and booleans convert, numeral
strings parse, `None` (and anything non-numeric) raises, i.e. `none`. -/
def pyFloat : PyVal → Option ℚ
  | .num q => some q
  | .bool b => some (if b then 1 else 0)
  | .str s => parseDecimal s
  | .null => none

/-! ### Fixed-point formatting (`format(x, ".2f")` and `f"...:.2f"`) -/

/-- The decimal digit character for `n < 10`. -/
def digitChar (n : Nat) : Char := Char.ofNat (48 + n)

/-- Exactly two decimal digits (for the fractional part `n < 100`). -/
def pad2 (n : Nat) : String := String.mk [digitChar (n / 10), digitChar (n % 10)]

/-- Round to the nearest integer, ties to even (the rounding used by
Python fixed-point formatting). -/
def roundHalfEven (q : ℚ) : Int :=
  if q - (Rat.floor q : ℚ) < 1/2 then Rat.floor q
  else if 1/2 < q - (Rat.floor q : ℚ) then Rat.floor q + 1
  else if Rat.floor q % 2 = 0 then Rat.floor q
  else Rat.floor q + 1

/-- `format(q, ".2f")`: sign, integer part, point, exactly two decimals. -/
def format2f (q : ℚ) : String :=
  if roundHalfEven (q * 100) < 0 then
    "-" ++ toString ((-roundHalfEven (q * 100)) / 100) ++ "."
      ++ pad2 ((-roundHalfEven (q * 100)) % 100).toNat
  else
    toString (roundHalfEven (q * 100) / 100) ++ "."
      ++ pad2 (roundHalfEven (q * 100) % 100).toNat

/-! ### Ticker validation (`parse_and_validate_ticker_symbol`) -/

/-- Outcome of the reference lookup HTTP call for one symbol. -/
inductive LookupOutcome where
  | requestError
  | jsonError
  | response (status : Option String) (resultsPresent : Bool)
deriving DecidableEq

/-- `symbol[1:]` after `symbol.startswith("$")`: drop one leading dollar. -/
def stripDollar (s : String) : String :=
  if s.data.head? = some '$' then String.mk s.data.tail else s

/-- `parse_and_validate_ticker_symbol`: strip an optional leading dollar,
then validate the stripped symbol against the reference endpoint.
`ValueError` is modelled as `Except.error` carrying the message. -/
def parse_and_validate_ticker_symbol (apiKeyPresent : Bool)
    (lookup : String → LookupOutcome) (symbol : String) : Except String String :=
  if apiKeyPresent = false then
    .error "API key for market data is not configured."
  else
    match lookup (stripDollar symbol) with
    | .requestError =>
        .error ("Network error while validating ticker " ++ symbol ++ ".")
    | .jsonError =>
        .error ("Invalid response format while validating ticker " ++ symbol ++ ".")
    | .response st results =>
        if st = some "NOT_FOUND" ∨ results = false then
          .error ("Ticker symbol \x27" ++ symbol ++ "\x27 not found or invalid.")
        else
          .ok (stripDollar symbol)

/-- `Except.isOk` for the validation result. -/
def okResult : Except String String → Bool
  | .ok _ => true
  | .error _ => false

/-! ### Calendar walks (`first_trading_date`, `last_trading_date`)

The probe `p : Int → Bool` models `implied_market_status` (a network or
format failure there returns `False`, i.e. closed). `yearEnd` is the day
index of January 1 of the next year, so crossing into the next year is
`yearEnd ≤ d`. -/

/-- Loop body of `first_trading_date`, fuel = remaining `range(366)` steps. -/
def ftdGo (p : Int → Bool) (yearEnd : Int) : Nat → Int → Option Int
  | 0, _ => none
  | fuel + 1, d =>
    if d % 7 < 5 then
      if p d then some d
      else if yearEnd ≤ d + 1 then none
      else ftdGo p yearEnd fuel (d + 1)
    else if d % 7 = 5 then
      if yearEnd ≤ d + 2 then none
      else ftdGo p yearEnd fuel (d + 2)
    else
      if yearEnd ≤ d + 1 then none
      else ftdGo p yearEnd fuel (d + 1)

/-- `first_trading_date`: walk forward from January 1 (`yearStart`),
at most 366 iterations, returning `none` on year crossing or exhaustion. -/
def first_trading_date (p : Int → Bool) (yearStart yearEnd : Int) : Option Int :=
  ftdGo p yearEnd 366 yearStart

/-- Loop body of `last_trading_date`, fuel = remaining `range(14)` steps. -/
def ltdGo (p : Int → Bool) : Nat → Int → Option Int
  | 0, _ => none
  | fuel + 1, d =>
    if d % 7 < 5 then
      if p d then some d else ltdGo p fuel (d - 1)
    else if d % 7 = 5 then ltdGo p fuel (d - 1)
    else ltdGo p fuel (d - 2)

/-- `last_trading_date`: walk backward from today, at most 14 iterations. -/
def last_trading_date (p : Int → Bool) (today : Int) : Option Int :=
  ltdGo p 14 today

/-- The next day at or after `d` that the forward walk probes: a weekday
probes itself, Saturday is skipped by 2 days, Sunday by 1 day. -/
def nextProbe (d : Int) : Int :=
  if d % 7 < 5 then d else if d % 7 = 5 then d + 2 else d + 1

/-- The sequence of days probed by the forward walk starting at `start`,
assuming every probe so far reported closed. -/
def probeSeq (start : Int) : Nat → Int
  | 0 => nextProbe start
  | k + 1 => nextProbe (probeSeq start k + 1)

/-- The next day at or before `d` that the backward walk probes: a weekday
probes itself, Saturday steps back 1 day, Sunday steps back 2 days. -/
def prevProbe (d : Int) : Int :=
  if d % 7 < 5 then d else if d % 7 = 5 then d - 1 else d - 2

/-- The sequence of days probed by the backward walk starting at `start`,
assuming every probe so far reported closed. -/
def probeSeqBack (start : Int) : Nat → Int
  | 0 => prevProbe start
  | k + 1 => prevProbe (probeSeqBack start k - 1)

/-! ### Retrying price fetch (`fetch_with_retry`) -/

/-- Outcome of one HTTP attempt of a price fetch: transport failure, JSON
decode failure, or a decoded body with its status field and the requested
key (`value = some v` iff `key_to_extract in data`). -/
inductive AttemptResult where
  | requestError
  | jsonError
  | response (status : Option String) (value : Option PyVal)
deriving DecidableEq

/-- Extraction performed by one loop iteration of `fetch_with_retry`:
status OK with the key present succeeds; a present key with a status other
than NOT_FOUND is accepted leniently; everything else fails the attempt. -/
def extract_attempt : AttemptResult → Option PyVal
  | .requestError => none
  | .jsonError => none
  | .response st value =>
    if st = some "OK" ∧ value.isSome = true then value
    else if value.isSome = true ∧ ¬ st = some "NOT_FOUND" then value
    else none

/-- Observable trace of `fetch_with_retry`: the returned value, the number
of attempts made, and the number of `time.sleep(1)` calls. -/
structure FetchTrace where
  result : Option PyVal
  attemptsMade : Nat
  sleeps : Nat
deriving DecidableEq

/-- The retry loop: attempt index `i`, fuel = remaining attempts; sleeps
one unit after a failed attempt except after the last one. -/
def fetchAux (attempts : Nat → AttemptResult) (maxRetries : Nat) (i : Nat) :
    Nat → FetchTrace
  | 0 => ⟨none, 0, 0⟩
  | fuel + 1 =>
    match extract_attempt (attempts i) with
    | some v => ⟨some v, 1, 0⟩
    | none =>
      let rest := fetchAux attempts maxRetries (i + 1) fuel
      ⟨rest.result, rest.attemptsMade + 1,
        rest.sleeps + (if i < maxRetries - 1 then 1 else 0)⟩

/-- `fetch_with_retry` with `max_retries = 3`. -/
def fetch_with_retry (attempts : Nat → AttemptResult) : FetchTrace :=
  fetchAux attempts 3 0 3

/-! ### `ytd` -/

/-- Renders a date in a message (the source uses `strftime("%Y-%m-%d")`;
the model renders the day index). -/
def dateStr (d : Int) : String := toString d

/-- The external world as seen by one `ytd` request. -/
structure YtdEnv where
  apiKeyPresent : Bool
  lookup : String → LookupOutcome
  probe : Int → Bool
  yearStart : Int
  yearEnd : Int
  today : Int
  openAttempts : Nat → AttemptResult
  closeAttempts : Nat → AttemptResult

/-- `ytd`: validate, resolve the two trading dates, fetch the two prices
with retry, convert to float, reject a zero opening price, then format
the percentage change report. -/
def ytd (env : YtdEnv) (original_symbol : String) : String :=
  if env.apiKeyPresent = false then
    "\nAPI key for market data is not configured. Please contact bot admin.\n"
  else
    match parse_and_validate_ticker_symbol env.apiKeyPresent env.lookup original_symbol with
    | .error e => "\n" ++ e ++ "\n"
    | .ok symbol =>
      match first_trading_date env.probe env.yearStart env.yearEnd with
      | none =>
          "\nCould not determine the first trading date of the year for "
            ++ toUpperStr symbol ++ ".\n"
      | some firstDate =>
        match last_trading_date env.probe env.today with
        | none =>
            "\nCould not determine the most recent trading date for "
              ++ toUpperStr symbol ++ ".\n"
        | some _lastDate =>
          match (fetch_with_retry env.openAttempts).result,
                (fetch_with_retry env.closeAttempts).result with
          | none, _ =>
              "\nCould not retrieve pricing data for " ++ toUpperStr symbol
                ++ " after multiple attempts.\n"
          | some _, none =>
              "\nCould not retrieve pricing data for " ++ toUpperStr symbol
                ++ " after multiple attempts.\n"
          | some firstDayOpen, some lastDayClose =>
            match pyFloat firstDayOpen, pyFloat lastDayClose with
            | some openF, some closeF =>
              if openF = 0 then
                "\nCannot calculate YTD for " ++ toUpperStr symbol
                  ++ " as opening price on " ++ dateStr firstDate ++ " was zero.\n"
              else
                "\n<a href=\"https://robinhood.com/stocks/" ++ toUpperStr symbol
                  ++ "\">" ++ toUpperStr symbol ++ "</a> is "
                  ++ (if 0 < (closeF / openF - 1) * 100 then ":arrow_up_small:"
                      else ":arrow_down_small:")
                  ++ " " ++ format2f ((closeF / openF - 1) * 100) ++ " % this year\n"
            | _, _ =>
                "\nError processing price data for " ++ toUpperStr symbol ++ ".\n"

/-! ### `coin` -/

/-- Parsed body of one Coinbase spot response: the `currency` and `amount`
fields of the `data` object (each `none` if absent). -/
structure CoinData where
  currency : Option String
  amount : Option String
deriving DecidableEq

/-- Outcome of one Coinbase spot request: transport failure, JSON decode
failure, or a decoded body whose `data` field is `none` when missing or
not an object. -/
inductive CoinResp where
  | requestError
  | jsonError
  | ok (dataField : Option CoinData)
deriving DecidableEq

/-- The fixed ordered pairing list of `coin`. -/
def pairings_to_fetch : List (String × String) :=
  [("BTC-USD", "Bitcoin"), ("ETH-USD", "Ethereum"), ("ADA-USD", "Cardano"),
   ("MATIC-USD", "Polygon"), ("SOL-USD", "Solana"),
   ("BTC-CAD", "Bitcoin"), ("ETH-CAD", "Ethereum"), ("ADA-CAD", "Cardano"),
   ("MATIC-CAD", "Polygon"), ("SOL-CAD", "Solana")]

/-- The line `coin` appends for one pairing: the loop body of `coin`,
including every failure-annotation branch. -/
def coinLine (pairing baseName : String) (r : CoinResp) : String :=
  let quote := String.mk ((pairing.data.splitOn '-').getD 1 [])
  match r with
  | .requestError =>
      "1 " ++ baseName ++ " (" ++ quote ++ "): Data unavailable (network)"
  | .jsonError =>
      "1 " ++ baseName ++ " (" ++ quote ++ "): Data unavailable (format)"
  | .ok none =>
      "1 " ++ baseName ++ " (" ++ quote ++ "): Data format error"
  | .ok (some pd) =>
    match pd.currency, pd.amount with
    | some cur, some amt =>
      if cur = "" then
        "1 " ++ baseName ++ " (" ++ quote ++ "): Data incomplete"
      else
        match parseDecimal amt with
        | none => "1 " ++ baseName ++ " (" ++ cur ++ "): Invalid price data"
        | some q =>
            "1 " ++ baseName ++ " is $" ++ format2f q ++ " in "
              ++ (if cur = "CAD" then ":Canada:" else ":United_States:")
              ++ " (" ++ cur ++ ")"
    | _, _ =>
        "1 " ++ baseName ++ " (" ++ quote ++ "): Data incomplete"

/-- `result_parts` after the loop of `coin`. -/
def coinLines (world : String → CoinResp) : List String :=
  pairings_to_fetch.map (fun pr => coinLine pr.1 pr.2 (world pr.1))

/-- `coin`: one line per pairing; the generic unavailability message only
when `result_parts` ended up empty. -/
def coin (world : String → CoinResp) : String :=
  if coinLines world = [] then
    "Could not retrieve any cryptocurrency prices at this time. Please try again later."
  else
    String.intercalate "\n" (coinLines world)

/-! ### Lemmas about the forward calendar walk -/

theorem nextProbe_ge (d : Int) : d ≤ nextProbe d := by
  unfold nextProbe
  split
  · omega
  · split <;> omega

theorem nextProbe_weekday (d : Int) : nextProbe d % 7 < 5 := by
  unfold nextProbe
  split
  · omega
  · split <;> omega

theorem probeSeq_weekday (start : Int) (k : Nat) : probeSeq start k % 7 < 5 := by
  cases k <;> exact nextProbe_weekday _

theorem probeSeq_lt_succ (start : Int) (k : Nat) :
    probeSeq start k < probeSeq start (k + 1) := by
  have h := nextProbe_ge (probeSeq start k + 1)
  simp only [probeSeq]
  omega

theorem probeSeq_ge (start : Int) (k : Nat) : start ≤ probeSeq start k := by
  induction k with
  | zero => exact nextProbe_ge start
  | succ k ih =>
      have h := probeSeq_lt_succ start k
      omega

theorem probeSeq_zero_le (start : Int) (k : Nat) :
    probeSeq start 0 ≤ probeSeq start k := by
  induction k with
  | zero => exact le_refl _
  | succ k ih =>
      have h := probeSeq_lt_succ start k
      omega

theorem probeSeq_shift (start : Int) (k : Nat) :
    probeSeq (probeSeq start 0 + 1) k = probeSeq start (k + 1) := by
  induction k with
  | zero => rfl
  | succ k ih =>
      show nextProbe (probeSeq (probeSeq start 0 + 1) k + 1)
        = nextProbe (probeSeq start (k + 1) + 1)
      rw [ih]

/-- Soundness of the forward walk: any returned day is an open weekday
inside the current year, at or after the starting day. -/
theorem ftdGo_sound (p : Int → Bool) (ye : Int) :
    ∀ (fuel : Nat) (d r : Int), d < ye → ftdGo p ye fuel d = some r →
      p r = true ∧ r % 7 < 5 ∧ d ≤ r ∧ r < ye := by
  intro fuel
  induction fuel with
  | zero =>
      intro d r _ h
      exact absurd h (by simp [ftdGo])
  | succ fuel ih =>
      intro d r hd h
      simp only [ftdGo] at h
      split at h
      · split at h
        · have hr := Option.some.inj h
          subst hr
          exact ⟨by assumption, by assumption, le_refl d, hd⟩
        · split at h
          · exact absurd h (by simp)
          · have hres := ih (d + 1) r (by omega) h
            exact ⟨hres.1, hres.2.1, by omega, hres.2.2.2⟩
      · split at h
        · split at h
          · exact absurd h (by simp)
          · have hres := ih (d + 2) r (by omega) h
            exact ⟨hres.1, hres.2.1, by omega, hres.2.2.2⟩
        · split at h
          · exact absurd h (by simp)
          · have hres := ih (d + 1) r (by omega) h
            exact ⟨hres.1, hres.2.1, by omega, hres.2.2.2⟩

/-- Completeness of the forward walk: if the first `N` probed weekdays
report closed and the next probed weekday reports open (inside the year,
with enough iterations left), the walk returns that day. -/
theorem ftdGo_complete (p : Int → Bool) (ye : Int) :
    ∀ (N : Nat) (d : Int) (fuel : Nat),
      (∀ k, k < N → p (probeSeq d k) = false) →
      p (probeSeq d N) = true →
      probeSeq d N < ye →
      probeSeq d N < d + (fuel : Int) →
      ftdGo p ye fuel d = some (probeSeq d N) := by
  intro N
  induction N with
  | zero =>
      intro d fuel _ hopen hin hfuel
      by_cases h5 : d % 7 < 5
      · have hnd : probeSeq d 0 = d := by
          simp only [probeSeq, nextProbe, if_pos h5]
        rw [hnd] at hopen hin hfuel ⊢
        obtain ⟨f, rfl⟩ : ∃ f, fuel = f + 1 := ⟨fuel - 1, by omega⟩
        simp only [ftdGo, if_pos h5, hopen, if_true]
      · by_cases h6 : d % 7 = 5
        · have hnd : probeSeq d 0 = d + 2 := by
            simp only [probeSeq, nextProbe, if_neg h5, if_pos h6]
          rw [hnd] at hopen hin hfuel ⊢
          obtain ⟨f, rfl⟩ : ∃ f, fuel = f + 3 := ⟨fuel - 3, by omega⟩
          have hw : (d + 2) % 7 < 5 := by omega
          simp only [ftdGo, if_neg h5, if_pos h6, if_neg (by omega : ¬ ye ≤ d + 2),
            if_pos hw, hopen, if_true]
        · have hnd : probeSeq d 0 = d + 1 := by
            simp only [probeSeq, nextProbe, if_neg h5, if_neg h6]
          rw [hnd] at hopen hin hfuel ⊢
          obtain ⟨f, rfl⟩ : ∃ f, fuel = f + 2 := ⟨fuel - 2, by omega⟩
          have hw : (d + 1) % 7 < 5 := by omega
          simp only [ftdGo, if_neg h5, if_neg h6, if_neg (by omega : ¬ ye ≤ d + 1),
            if_pos hw, hopen, if_true]
  | succ N ih =>
      intro d fuel h1 hopen hin hfuel
      have hclosed0 : p (probeSeq d 0) = false := h1 0 (Nat.succ_pos N)
      have hge1 : probeSeq d 0 + 1 ≤ probeSeq d (N + 1) := by
        have h := probeSeq_lt_succ d N
        have h3 := probeSeq_zero_le d N
        omega
      by_cases h5 : d % 7 < 5
      · have hnd : probeSeq d 0 = d := by
          simp only [probeSeq, nextProbe, if_pos h5]
        rw [hnd] at hclosed0 hge1
        obtain ⟨f, rfl⟩ : ∃ f, fuel = f + 1 := ⟨fuel - 1, by omega⟩
        have hshift : ∀ k, probeSeq (d + 1) k = probeSeq d (k + 1) := by
          intro k
          have h := probeSeq_shift d k
          rw [hnd] at h
          exact h
        simp only [ftdGo, if_pos h5, hclosed0, if_false,
          if_neg (by omega : ¬ ye ≤ d + 1)]
        rw [show some (probeSeq d (N + 1)) = some (probeSeq (d + 1) N) by rw [hshift]]
        apply ih (d + 1) f
        · intro k hk
          rw [hshift]
          exact h1 (k + 1) (by omega)
        · rw [hshift]; exact hopen
        · rw [hshift]; exact hin
        · rw [hshift]; omega
      · by_cases h6 : d % 7 = 5
        · have hnd : probeSeq d 0 = d + 2 := by
            simp only [probeSeq, nextProbe, if_neg h5, if_pos h6]
          rw [hnd] at hclosed0 hge1
          obtain ⟨f, rfl⟩ : ∃ f, fuel = f + 2 := ⟨fuel - 2, by omega⟩
          have hshift : ∀ k, probeSeq (d + 3) k = probeSeq d (k + 1) := by
            intro k
            have h := probeSeq_shift d k
            rw [hnd, show d + 2 + 1 = d + 3 by ring] at h
            exact h
          have hw : (d + 2) % 7 < 5 := by omega
          simp only [ftdGo, if_neg h5, if_pos h6,
            if_neg (by omega : ¬ ye ≤ d + 2), if_pos hw, hclosed0, if_false,
            if_neg (by omega : ¬ ye ≤ d + 2 + 1)]
          rw [show d + 2 + 1 = d + 3 by ring]
          rw [show some (probeSeq d (N + 1)) = some (probeSeq (d + 3) N) by rw [hshift]]
          apply ih (d + 3) f
          · intro k hk
            rw [hshift]
            exact h1 (k + 1) (by omega)
          · rw [hshift]; exact hopen
          · rw [hshift]; exact hin
          · rw [hshift]; omega
        · have hnd : probeSeq d 0 = d + 1 := by
            simp only [probeSeq, nextProbe, if_neg h5, if_neg h6]
          rw [hnd] at hclosed0 hge1
          obtain ⟨f, rfl⟩ : ∃ f, fuel = f + 2 := ⟨fuel - 2, by omega⟩
          have hshift : ∀ k, probeSeq (d + 2) k = probeSeq d (k + 1) := by
            intro k
            have h := probeSeq_shift d k
            rw [hnd, show d + 1 + 1 = d + 2 by ring] at h
            exact h
          have hw : (d + 1) % 7 < 5 := by omega
          simp only [ftdGo, if_neg h5, if_neg h6,
            if_neg (by omega : ¬ ye ≤ d + 1), if_pos hw, hclosed0, if_false,
            if_neg (by omega : ¬ ye ≤ d + 1 + 1)]
          rw [show d + 1 + 1 = d + 2 by ring]
          rw [show some (probeSeq d (N + 1)) = some (probeSeq (d + 2) N) by rw [hshift]]
          apply ih (d + 2) f
          · intro k hk
            rw [hshift]
            exact h1 (k + 1) (by omega)
          · rw [hshift]; exact hopen
          · rw [hshift]; exact hin
          · rw [hshift]; omega

/-! ### Lemmas about the backward calendar walk -/

theorem prevProbe_le (d : Int) : prevProbe d ≤ d := by
  unfold prevProbe
  split
  · omega
  · split <;> omega

theorem prevProbe_weekday (d : Int) : prevProbe d % 7 < 5 := by
  unfold prevProbe
  split
  · omega
  · split <;> omega

theorem probeSeqBack_weekday (start : Int) (k : Nat) :
    probeSeqBack start k % 7 < 5 := by
  cases k <;> exact prevProbe_weekday _

theorem probeSeqBack_succ_lt (start : Int) (k : Nat) :
    probeSeqBack start (k + 1) < probeSeqBack start k := by
  have h := prevProbe_le (probeSeqBack start k - 1)
  simp only [probeSeqBack]
  omega

theorem probeSeqBack_le (start : Int) (k : Nat) : probeSeqBack start k ≤ start := by
  induction k with
  | zero => exact prevProbe_le start
  | succ k ih =>
      have h := probeSeqBack_succ_lt start k
      omega

theorem probeSeqBack_le_zero (start : Int) (k : Nat) :
    probeSeqBack start k ≤ probeSeqBack start 0 := by
  induction k with
  | zero => exact le_refl _
  | succ k ih =>
      have h := probeSeqBack_succ_lt start k
      omega

theorem probeSeqBack_shift (start : Int) (k : Nat) :
    probeSeqBack (probeSeqBack start 0 - 1) k = probeSeqBack start (k + 1) := by
  induction k with
  | zero => rfl
  | succ k ih =>
      show prevProbe (probeSeqBack (probeSeqBack start 0 - 1) k - 1)
        = prevProbe (probeSeqBack start (k + 1) - 1)
      rw [ih]

/-- Soundness of the backward walk: any returned day is an open weekday at
or before the starting day. -/
theorem ltdGo_sound (p : Int → Bool) :
    ∀ (fuel : Nat) (d r : Int), ltdGo p fuel d = some r →
      p r = true ∧ r % 7 < 5 ∧ r ≤ d := by
  intro fuel
  induction fuel with
  | zero =>
      intro d r h
      exact absurd h (by simp [ltdGo])
  | succ fuel ih =>
      intro d r h
      simp only [ltdGo] at h
      split at h
      · split at h
        · have hr := Option.some.inj h
          subst hr
          exact ⟨by assumption, by assumption, le_refl d⟩
        · have hres := ih (d - 1) r h
          exact ⟨hres.1, hres.2.1, by omega⟩
      · split at h
        · have hres := ih (d - 1) r h
          exact ⟨hres.1, hres.2.1, by omega⟩
        · have hres := ih (d - 2) r h
          exact ⟨hres.1, hres.2.1, by omega⟩

/-- Completeness of the backward walk: if the first `N` probed weekdays
report closed and the next probed weekday reports open, with enough
iterations left, the walk returns that day. -/
theorem ltdGo_complete (p : Int → Bool) :
    ∀ (N : Nat) (d : Int) (fuel : Nat),
      (∀ k, k < N → p (probeSeqBack d k) = false) →
      p (probeSeqBack d N) = true →
      d - (fuel : Int) < probeSeqBack d N →
      ltdGo p fuel d = some (probeSeqBack d N) := by
  intro N
  induction N with
  | zero =>
      intro d fuel _ hopen hfuel
      by_cases h5 : d % 7 < 5
      · have hnd : probeSeqBack d 0 = d := by
          simp only [probeSeqBack, prevProbe, if_pos h5]
        rw [hnd] at hopen hfuel ⊢
        obtain ⟨f, rfl⟩ : ∃ f, fuel = f + 1 := ⟨fuel - 1, by omega⟩
        simp only [ltdGo, if_pos h5, hopen, if_true]
      · by_cases h6 : d % 7 = 5
        · have hnd : probeSeqBack d 0 = d - 1 := by
            simp only [probeSeqBack, prevProbe, if_neg h5, if_pos h6]
          rw [hnd] at hopen hfuel ⊢
          obtain ⟨f, rfl⟩ : ∃ f, fuel = f + 2 := ⟨fuel - 2, by omega⟩
          have hw : (d - 1) % 7 < 5 := by omega
          simp only [ltdGo, if_neg h5, if_pos h6, if_pos hw, hopen, if_true]
        · have hnd : probeSeqBack d 0 = d - 2 := by
            simp only [probeSeqBack, prevProbe, if_neg h5, if_neg h6]
          rw [hnd] at hopen hfuel ⊢
          obtain ⟨f, rfl⟩ : ∃ f, fuel = f + 2 := ⟨fuel - 2, by omega⟩
          have hw : (d - 2) % 7 < 5 := by omega
          simp only [ltdGo, if_neg h5, if_neg h6, if_pos hw, hopen, if_true]
  | succ N ih =>
      intro d fuel h1 hopen hfuel
      have hclosed0 : p (probeSeqBack d 0) = false := h1 0 (Nat.succ_pos N)
      have hge1 : probeSeqBack d (N + 1) ≤ probeSeqBack d 0 - 1 := by
        have h := probeSeqBack_succ_lt d N
        have h3 := probeSeqBack_le_zero d N
        omega
      by_cases h5 : d % 7 < 5
      · have hnd : probeSeqBack d 0 = d := by
          simp only [probeSeqBack, prevProbe, if_pos h5]
        rw [hnd] at hclosed0 hge1
        obtain ⟨f, rfl⟩ : ∃ f, fuel = f + 1 := ⟨fuel - 1, by omega⟩
        have hshift : ∀ k, probeSeqBack (d - 1) k = probeSeqBack d (k + 1) := by
          intro k
          have h := probeSeqBack_shift d k
          rw [hnd] at h
          exact h
        simp only [ltdGo, if_pos h5, hclosed0, if_false]
        rw [show some (probeSeqBack d (N + 1)) = some (probeSeqBack (d - 1) N) by
          rw [hshift]]
        apply ih (d - 1) f
        · intro k hk
          rw [hshift]
          exact h1 (k + 1) (by omega)
        · rw [hshift]; exact hopen
        · rw [hshift]; omega
      · by_cases h6 : d % 7 = 5
        · have hnd : probeSeqBack d 0 = d - 1 := by
            simp only [probeSeqBack, prevProbe, if_neg h5, if_pos h6]
          rw [hnd] at hclosed0 hge1
          obtain ⟨f, rfl⟩ : ∃ f, fuel = f + 2 := ⟨fuel - 2, by omega⟩
          have hshift : ∀ k, probeSeqBack (d - 2) k = probeSeqBack d (k + 1) := by
            intro k
            have h := probeSeqBack_shift d k
            rw [hnd, show d - 1 - 1 = d - 2 by ring] at h
            exact h
          have hw : (d - 1) % 7 < 5 := by omega
          simp only [ltdGo, if_neg h5, if_pos h6, if_pos hw, hclosed0, if_false]
          rw [show d - 1 - 1 = d - 2 by ring]
          rw [show some (probeSeqBack d (N + 1)) = some (probeSeqBack (d - 2) N) by
            rw [hshift]]
          apply ih (d - 2) f
          · intro k hk
            rw [hshift]
            exact h1 (k + 1) (by omega)
          · rw [hshift]; exact hopen
          · rw [hshift]; omega
        · have hnd : probeSeqBack d 0 = d - 2 := by
            simp only [probeSeqBack, prevProbe, if_neg h5, if_neg h6]
          rw [hnd] at hclosed0 hge1
          obtain ⟨f, rfl⟩ : ∃ f, fuel = f + 2 := ⟨fuel - 2, by omega⟩
          have hshift : ∀ k, probeSeqBack (d - 3) k = probeSeqBack d (k + 1) := by
            intro k
            have h := probeSeqBack_shift d k
            rw [hnd, show d - 2 - 1 = d - 3 by ring] at h
            exact h
          have hw : (d - 2) % 7 < 5 := by omega
          simp only [ltdGo, if_neg h5, if_neg h6, if_pos hw, hclosed0, if_false]
          rw [show d - 2 - 1 = d - 3 by ring]
          rw [show some (probeSeqBack d (N + 1)) = some (probeSeqBack (d - 3) N) by
            rw [hshift]]
          apply ih (d - 3) f
          · intro k hk
            rw [hshift]
            exact h1 (k + 1) (by omega)
          · rw [hshift]; exact hopen
          · rw [hshift]; omega

/-! ### Lemmas about `fetch_with_retry` and `ytd` -/

theorem fetchAux_attempts_le (attempts : Nat → AttemptResult) (m : Nat) :
    ∀ (fuel i : Nat), (fetchAux attempts m i fuel).attemptsMade ≤ fuel := by
  intro fuel
  induction fuel with
  | zero => intro i; simp [fetchAux]
  | succ fuel ih =>
      intro i
      simp only [fetchAux]
      split
      · simp
      · have h := ih (i + 1)
        simp only []
        omega

/-- Reduction of `ytd` through validation and calendar resolution down to
the price handling, given that both fetches returned a value. -/
theorem ytd_prices (env : YtdEnv) (s sym : String) (f l : Int) (vo vc : PyVal)
    (hkey : env.apiKeyPresent = true)
    (hparse : parse_and_validate_ticker_symbol env.apiKeyPresent env.lookup s = .ok sym)
    (hf : first_trading_date env.probe env.yearStart env.yearEnd = some f)
    (hl : last_trading_date env.probe env.today = some l)
    (ho : (fetch_with_retry env.openAttempts).result = some vo)
    (hc : (fetch_with_retry env.closeAttempts).result = some vc) :
    ytd env s =
      match pyFloat vo, pyFloat vc with
      | some openF, some closeF =>
        if openF = 0 then
          "\nCannot calculate YTD for " ++ toUpperStr sym
            ++ " as opening price on " ++ dateStr f ++ " was zero.\n"
        else
          "\n<a href=\"https://robinhood.com/stocks/" ++ toUpperStr sym
            ++ "\">" ++ toUpperStr sym ++ "</a> is "
            ++ (if 0 < (closeF / openF - 1) * 100 then ":arrow_up_small:"
                else ":arrow_down_small:")
            ++ " " ++ format2f ((closeF / openF - 1) * 100) ++ " % this year\n"
      | _, _ =>
          "\nError processing price data for " ++ toUpperStr sym ++ ".\n" := by
  unfold ytd
  rw [hparse, hf, hl, ho, hc, hkey]
  simp only [Bool.true_eq_false, if_false]

/-- Reduction of `ytd` when one of the two retrying fetches exhausted its
attempts: the per-symbol failure message is returned. -/
theorem ytd_fetch_failed (env : YtdEnv) (s sym : String) (f l : Int)
    (hkey : env.apiKeyPresent = true)
    (hparse : parse_and_validate_ticker_symbol env.apiKeyPresent env.lookup s = .ok sym)
    (hf : first_trading_date env.probe env.yearStart env.yearEnd = some f)
    (hl : last_trading_date env.probe env.today = some l)
    (h : (fetch_with_retry env.openAttempts).result = none
      ∨ (fetch_with_retry env.closeAttempts).result = none) :
    ytd env s =
      "\nCould not retrieve pricing data for " ++ toUpperStr sym
        ++ " after multiple attempts.\n" := by
  unfold ytd
  rw [hparse, hf, hl, hkey]
  simp only [Bool.true_eq_false, if_false]
  rcases h with h | h
  · rw [h]
  · rw [h]
    cases hopen : (fetch_with_retry env.openAttempts).result <;> rfl

/-- `List.getD` of a mapped list, given the index is in range. -/
theorem getD_map {α β : Type} (g : α → β) :
    ∀ (l : List α) (i : Nat), i < l.length →
      ∀ (a : α) (b : β), (l.map g).getD i b = g (l.getD i a)
  | _ :: _, 0, _, _, _ => rfl
  | _ :: xs, i + 1, h, a, b => getD_map g xs i (by simpa using h) a b

/-! ### Claim theorems -/

/-- C7: within one price-fetch attempt, a response whose status is not the
canonical "OK" still yields the requested field value provided the field is
present and the status is not the explicit "NOT_FOUND" (lenient
extraction); a response with status "OK" and the field present always
yields the value. -/
theorem extract_attempt_lenient (st : Option String) (v : PyVal)
    (hst : ¬ st = some "NOT_FOUND") :
    extract_attempt (.response st (some v)) = some v
    ∧ extract_attempt (.response (some "OK") (some v)) = some v := by
  have hred : ∀ (st : Option String) (value : Option PyVal),
      extract_attempt (.response st value)
        = if st = some "OK" ∧ value.isSome = true then value
          else if value.isSome = true ∧ ¬ st = some "NOT_FOUND" then value
          else none := fun _ _ => rfl
  constructor
  · rw [hred]
    by_cases hok : st = some "OK"
    · rw [if_pos ⟨hok, rfl⟩]
    · rw [if_neg (fun hh => hok hh.1), if_pos ⟨rfl, hst⟩]
  · rw [hred]
    rw [if_pos ⟨rfl, rfl⟩]

theorem extract_attempt_lenient_witness :
    extract_attempt (.response (some "DELAYED") (some (.num 1))) = some (.num 1)
    ∧ extract_attempt (.response (some "OK") (some (.num 1))) = some (.num 1) :=
  extract_attempt_lenient (some "DELAYED") (.num 1) (by decide)

/-- A reference lookup world in which every symbol is found. -/
def lookupAllFound : String → LookupOutcome :=
  fun _ => .response (some "OK") true

/-- C8 counterexample: for `s = "$A"` (a symbol string that itself starts
with a dollar sign), parsing-and-validating `"$" ++ s` does not give the
same result as parsing-and-validating `s`: only one dollar is stripped,
so the two calls validate and return different symbols. -/
theorem parse_dollar_prefix_counterexample :
    ¬ parse_and_validate_ticker_symbol true lookupAllFound ("$" ++ "$A")
      = parse_and_validate_ticker_symbol true lookupAllFound "$A" := by
  have h1 : parse_and_validate_ticker_symbol true lookupAllFound ("$" ++ "$A")
      = .ok "$A" := rfl
  have h2 : parse_and_validate_ticker_symbol true lookupAllFound "$A" = .ok "A" := rfl
  rw [h1, h2]
  intro h
  injection h with h
  exact absurd h (by decide)

/-- C8 amended: for every symbol string `s` that does not itself start
with a dollar sign, parsing-and-validating `"$" ++ s` and
parsing-and-validating `s` validate the same stripped symbol: they succeed
exactly together and return the same symbol on success (the raised error
messages differ only in echoing the original input, which the design
prescribes). -/
theorem parse_dollar_prefix_amended (s : String) (apiKeyPresent : Bool)
    (lookup : String → LookupOutcome)
    (hs : ¬ s.data.head? = some '$') :
    (∀ v, parse_and_validate_ticker_symbol apiKeyPresent lookup ("$" ++ s) = .ok v
        ↔ parse_and_validate_ticker_symbol apiKeyPresent lookup s = .ok v)
    ∧ okResult (parse_and_validate_ticker_symbol apiKeyPresent lookup ("$" ++ s))
        = okResult (parse_and_validate_ticker_symbol apiKeyPresent lookup s) := by
  have hstrip1 : stripDollar ("$" ++ s) = s := by
    cases s with
    | mk l =>
        show stripDollar (String.mk ('$' :: l)) = String.mk l
        unfold stripDollar
        simp
  have hstrip2 : stripDollar s = s := by
    unfold stripDollar
    rw [if_neg hs]
  unfold parse_and_validate_ticker_symbol
  rw [hstrip1, hstrip2]
  by_cases hk : apiKeyPresent = false
  · simp only [if_pos hk]
    exact ⟨fun v => by simp, by trivial⟩
  · simp only [if_neg hk]
    cases hlk : lookup s with
    | requestError => exact ⟨fun v => by simp, by trivial⟩
    | jsonError => exact ⟨fun v => by simp, by trivial⟩
    | response st results =>
        by_cases hnf : st = some "NOT_FOUND" ∨ results = false
        · simp only [if_pos hnf]
          exact ⟨fun v => by simp, by trivial⟩
        · simp only [if_neg hnf]
          exact ⟨fun v => by trivial, by trivial⟩

theorem parse_dollar_prefix_amended_witness :
    (∀ v, parse_and_validate_ticker_symbol true lookupAllFound ("$" ++ "A") = .ok v
        ↔ parse_and_validate_ticker_symbol true lookupAllFound "A" = .ok v)
    ∧ okResult (parse_and_validate_ticker_symbol true lookupAllFound ("$" ++ "A"))
        = okResult (parse_and_validate_ticker_symbol true lookupAllFound "A") :=
  parse_dollar_prefix_amended "A" true lookupAllFound (by decide)

/-- Attempt outcomes failing transiently twice, then succeeding. -/
def attemptsSucceedThird : Nat → AttemptResult :=
  fun i => if i = 2 then .response (some "OK") (some (.num 5)) else .requestError

/-- Attempt outcomes failing on every attempt. -/
def attemptsAllFail : Nat → AttemptResult := fun _ => .requestError

/-- C3: a price fetch makes at most 3 attempts with a one-unit sleep
between attempts (so 2 sleeps in a 3-attempt run); failing extraction on
the first two attempts and succeeding on the third returns the successful
value; failing all three returns `none` (never a partial or default
value); and `ytd` then returns the per-symbol failure message without
computing a percentage. -/
theorem fetch_with_retry_spec (A B : Nat → AttemptResult) (v : PyVal)
    (env : YtdEnv) (s sym : String) (f l : Int)
    (hA0 : extract_attempt (A 0) = none)
    (hA1 : extract_attempt (A 1) = none)
    (hA2 : extract_attempt (A 2) = some v)
    (hB : ∀ i, i < 3 → extract_attempt (B i) = none)
    (hkey : env.apiKeyPresent = true)
    (hparse : parse_and_validate_ticker_symbol env.apiKeyPresent env.lookup s = .ok sym)
    (hf : first_trading_date env.probe env.yearStart env.yearEnd = some f)
    (hl : last_trading_date env.probe env.today = some l)
    (henv : env.openAttempts = B) :
    fetch_with_retry A = ⟨some v, 3, 2⟩
    ∧ fetch_with_retry B = ⟨none, 3, 2⟩
    ∧ (∀ C : Nat → AttemptResult, (fetch_with_retry C).attemptsMade ≤ 3)
    ∧ ytd env s = "\nCould not retrieve pricing data for " ++ toUpperStr sym
        ++ " after multiple attempts.\n" := by
  have hBfetch : fetch_with_retry B = ⟨none, 3, 2⟩ := by
    unfold fetch_with_retry
    simp [fetchAux, hB 0 (by omega), hB 1 (by omega), hB 2 (by omega)]
  refine ⟨?_, hBfetch, ?_, ?_⟩
  · unfold fetch_with_retry
    simp [fetchAux, hA0, hA1, hA2]
  · intro C
    exact fetchAux_attempts_le C 3 3 0
  · apply ytd_fetch_failed env s sym f l hkey hparse hf hl
    left
    rw [henv, hBfetch]

/-- Environment for the C3 witness: validation and calendar resolve, but
every open-price attempt fails. -/
def envC3 : YtdEnv :=
  { apiKeyPresent := true
    lookup := lookupAllFound
    probe := fun _ => true
    yearStart := 0
    yearEnd := 365
    today := 4
    openAttempts := attemptsAllFail
    closeAttempts := fun _ => .response (some "OK") (some (.num 180)) }

theorem fetch_with_retry_spec_witness :
    fetch_with_retry attemptsSucceedThird = ⟨some (.num 5), 3, 2⟩
    ∧ fetch_with_retry attemptsAllFail = ⟨none, 3, 2⟩
    ∧ (∀ C : Nat → AttemptResult, (fetch_with_retry C).attemptsMade ≤ 3)
    ∧ ytd envC3 "aapl" = "\nCould not retrieve pricing data for "
        ++ toUpperStr "aapl" ++ " after multiple attempts.\n" :=
  fetch_with_retry_spec attemptsSucceedThird attemptsAllFail (.num 5) envC3
    "aapl" "aapl" 0 4 rfl rfl rfl (fun _ _ => rfl) rfl rfl rfl rfl rfl

/-- Every formatted value ends in a point followed by exactly two digits. -/
theorem format2f_two_decimals (q : ℚ) :
    ∃ a b : String, format2f q = a ++ "." ++ b ∧ b.length = 2 := by
  have hlen : ∀ n : Nat, (pad2 n).length = 2 := fun n => rfl
  unfold format2f
  split
  · exact ⟨"-" ++ toString ((-roundHalfEven (q * 100)) / 100) ++ "",
      pad2 ((-roundHalfEven (q * 100)) % 100).toNat, by simp, hlen _⟩
  · exact ⟨toString (roundHalfEven (q * 100) / 100),
      pad2 (roundHalfEven (q * 100) % 100).toNat, rfl, hlen _⟩

/-- `Rat.floor` agrees with the floor of the ordered field structure. -/
theorem ratFloor_eq_intFloor (q : ℚ) : Rat.floor q = ⌊q⌋ := by
  rw [Rat.floor_def', Rat.floor_def]

/-- Rounding an integer value returns that integer. -/
theorem roundHalfEven_intCast (n : Int) : roundHalfEven ((n : ℚ)) = n := by
  unfold roundHalfEven
  rw [ratFloor_eq_intFloor, Int.floor_intCast, sub_self]
  rw [if_pos (by norm_num : (0 : ℚ) < 1 / 2)]

/-- Evaluation of `format2f` at a nonnegative integer value. -/
theorem format2f_intCast_nonneg (n : Int) (h0 : ¬ (n * 100 : Int) < 0) :
    format2f ((n : ℚ))
      = toString (n * 100 / 100) ++ "." ++ pad2 ((n * 100) % 100).toNat := by
  have h : (n : ℚ) * 100 = ((n * 100 : Int) : ℚ) := by push_cast; ring
  unfold format2f
  rw [h, roundHalfEven_intCast, if_neg h0]

/-- C4: with both prices fetched and a nonzero opening price, the YTD
percentage change is `(close / open - 1) * 100`, the direction indicator
is the up arrow exactly when the change is strictly positive (zero or
negative yields the down arrow), and the report is the formatted string
containing the upper-cased symbol and the percentage rendered with
exactly two decimal places. -/
theorem ytd_percentage_spec (env : YtdEnv) (s sym : String) (f l : Int) (o c : ℚ)
    (hkey : env.apiKeyPresent = true)
    (hparse : parse_and_validate_ticker_symbol env.apiKeyPresent env.lookup s = .ok sym)
    (hf : first_trading_date env.probe env.yearStart env.yearEnd = some f)
    (hl : last_trading_date env.probe env.today = some l)
    (ho : (fetch_with_retry env.openAttempts).result = some (.num o))
    (hc : (fetch_with_retry env.closeAttempts).result = some (.num c))
    (hne : ¬ o = 0) :
    ytd env s =
      "\n<a href=\"https://robinhood.com/stocks/" ++ toUpperStr sym ++ "\">"
        ++ toUpperStr sym ++ "</a> is "
        ++ (if 0 < (c / o - 1) * 100 then ":arrow_up_small:" else ":arrow_down_small:")
        ++ " " ++ format2f ((c / o - 1) * 100) ++ " % this year\n"
    ∧ ((if 0 < (c / o - 1) * 100 then ":arrow_up_small:" else ":arrow_down_small:")
        = ":arrow_up_small:" ↔ 0 < (c / o - 1) * 100)
    ∧ (∃ a b : String, format2f ((c / o - 1) * 100) = a ++ "." ++ b ∧ b.length = 2) := by
  refine ⟨?_, ?_, format2f_two_decimals _⟩
  · rw [ytd_prices env s sym f l (.num o) (.num c) hkey hparse hf hl ho hc]
    show (if o = 0 then _ else _) = _
    rw [if_neg hne]
  · constructor
    · intro h
      by_contra hneg
      rw [if_neg hneg] at h
      exact absurd h (by decide)
    · intro h
      rw [if_pos h]

/-- Environment for the C4 witness: open 150, close 180. -/
def envC4 : YtdEnv :=
  { apiKeyPresent := true
    lookup := lookupAllFound
    probe := fun _ => true
    yearStart := 0
    yearEnd := 365
    today := 4
    openAttempts := fun _ => .response (some "OK") (some (.num 150))
    closeAttempts := fun _ => .response (some "OK") (some (.num 180)) }

theorem ytd_percentage_spec_witness :
    ytd envC4 "aapl"
      = "\n<a href=\"https://robinhood.com/stocks/AAPL\">AAPL</a> is :arrow_up_small: 20.00 % this year\n"
    ∧ (0 : ℚ) < ((180 : ℚ) / 150 - 1) * 100 := by
  have hval : ((180 : ℚ) / 150 - 1) * 100 = ((20 : Int) : ℚ) := by norm_num
  have h := ytd_percentage_spec envC4 "aapl" "aapl" 0 4 150 180 rfl rfl rfl rfl
    rfl rfl (by norm_num)
  refine ⟨?_, by norm_num⟩
  rw [h.1, hval, format2f_intCast_nonneg 20 (by omega),
    if_pos (by norm_num : (0 : ℚ) < ((20 : Int) : ℚ))]
  rfl

/-- C5: if the fetched first-day opening price converts to exactly zero,
`ytd` returns the dedicated zero-open rejection message naming the
upper-cased symbol; the percentage-change branch (the only division) is
not taken, so no division error can arise. -/
theorem ytd_zero_open_spec (env : YtdEnv) (s sym : String) (f l : Int)
    (vo vc : PyVal) (cq : ℚ)
    (hkey : env.apiKeyPresent = true)
    (hparse : parse_and_validate_ticker_symbol env.apiKeyPresent env.lookup s = .ok sym)
    (hf : first_trading_date env.probe env.yearStart env.yearEnd = some f)
    (hl : last_trading_date env.probe env.today = some l)
    (ho : (fetch_with_retry env.openAttempts).result = some vo)
    (hc : (fetch_with_retry env.closeAttempts).result = some vc)
    (hzero : pyFloat vo = some 0)
    (hcf : pyFloat vc = some cq) :
    ytd env s =
      "\nCannot calculate YTD for " ++ toUpperStr sym ++ " as opening price on "
        ++ dateStr f ++ " was zero.\n" := by
  rw [ytd_prices env s sym f l vo vc hkey hparse hf hl ho hc, hzero, hcf]
  show (if (0 : ℚ) = 0 then _ else _) = _
  rw [if_pos rfl]

/-- Environment for the C5 witness: open 0, close 180. -/
def envC5 : YtdEnv :=
  { apiKeyPresent := true
    lookup := lookupAllFound
    probe := fun _ => true
    yearStart := 0
    yearEnd := 365
    today := 4
    openAttempts := fun _ => .response (some "OK") (some (.num 0))
    closeAttempts := fun _ => .response (some "OK") (some (.num 180)) }

theorem ytd_zero_open_spec_witness :
    ytd envC5 "aapl" =
      "\nCannot calculate YTD for " ++ toUpperStr "aapl" ++ " as opening price on "
        ++ dateStr 0 ++ " was zero.\n" :=
  ytd_zero_open_spec envC5 "aapl" "aapl" 0 4 (.num 0) (.num 180) 180
    rfl rfl rfl rfl rfl rfl rfl rfl

/-- C10: if both fetches return values but either cannot be converted to
a float, `ytd` returns the "Error processing price data" message naming
the upper-cased symbol, and no percentage change is computed. -/
theorem ytd_float_error_spec (env : YtdEnv) (s sym : String) (f l : Int)
    (vo vc : PyVal)
    (hkey : env.apiKeyPresent = true)
    (hparse : parse_and_validate_ticker_symbol env.apiKeyPresent env.lookup s = .ok sym)
    (hf : first_trading_date env.probe env.yearStart env.yearEnd = some f)
    (hl : last_trading_date env.probe env.today = some l)
    (ho : (fetch_with_retry env.openAttempts).result = some vo)
    (hc : (fetch_with_retry env.closeAttempts).result = some vc)
    (hbad : pyFloat vo = none ∨ pyFloat vc = none) :
    ytd env s = "\nError processing price data for " ++ toUpperStr sym ++ ".\n" := by
  rw [ytd_prices env s sym f l vo vc hkey hparse hf hl ho hc]
  rcases hbad with h | h
  · rw [h]
  · rw [h]
    cases hvo : pyFloat vo <;> rfl

/-- Environment for the C10 witness: the opening price is the non-numeric
string "abc". -/
def envC10 : YtdEnv :=
  { apiKeyPresent := true
    lookup := lookupAllFound
    probe := fun _ => true
    yearStart := 0
    yearEnd := 365
    today := 4
    openAttempts := fun _ => .response (some "OK") (some (.str "abc"))
    closeAttempts := fun _ => .response (some "OK") (some (.num 180)) }

theorem ytd_float_error_spec_witness :
    ytd envC10 "aapl" = "\nError processing price data for " ++ toUpperStr "aapl" ++ ".\n" :=
  ytd_float_error_spec envC10 "aapl" "aapl" 0 4 (.str "abc") (.num 180)
    rfl rfl rfl rfl rfl rfl (Or.inl (by decide))

/-- The world in which every Coinbase spot request fails with a network
error. -/
def worldAllNetworkFail : String → CoinResp := fun _ => .requestError

set_option maxRecDepth 8192 in
/-- C1 (code bug): when all ten pairings fail, `coin` does not return the
single generic unavailability message: every failure path appends a
per-pairing failure line, so `result_parts` is never empty and the output
is the ten joined failure lines. The docstring of `coin` and the unit
test `test_coin_api_error_all_pairings` expect the generic message. -/
theorem coin_all_fail_behavior :
    coin worldAllNetworkFail =
      "1 Bitcoin (USD): Data unavailable (network)\n1 Ethereum (USD): Data unavailable (network)\n1 Cardano (USD): Data unavailable (network)\n1 Polygon (USD): Data unavailable (network)\n1 Solana (USD): Data unavailable (network)\n1 Bitcoin (CAD): Data unavailable (network)\n1 Ethereum (CAD): Data unavailable (network)\n1 Cardano (CAD): Data unavailable (network)\n1 Polygon (CAD): Data unavailable (network)\n1 Solana (CAD): Data unavailable (network)"
    ∧ ¬ coin worldAllNetworkFail =
        "Could not retrieve any cryptocurrency prices at this time. Please try again later." :=
  ⟨rfl, by decide⟩

/-- C2: starting from January 1, if the market-status probe reports closed
for the first `N` probed weekdays and open on the next probed weekday
(inside the year), `first_trading_date` returns exactly that `(N+1)`-th
probed weekday; every probed day is a weekday (Saturday advances 2 days
and Sunday 1 day without probing, as the two rewriting conjuncts state);
and a probe sequence with no open weekday in the year yields `none`
rather than a guess. The walk is bounded to 366 iterations by
construction (`first_trading_date` runs `ftdGo` with fuel 366). -/
theorem first_trading_date_spec (p : Int → Bool) (yearStart yearEnd : Int) (N : Nat)
    (hlen : yearEnd ≤ yearStart + 366)
    (hclosed : ∀ k, k < N → p (probeSeq yearStart k) = false)
    (hopen : p (probeSeq yearStart N) = true)
    (hin : probeSeq yearStart N < yearEnd) :
    first_trading_date p yearStart yearEnd = some (probeSeq yearStart N)
    ∧ (∀ k, probeSeq yearStart k % 7 < 5)
    ∧ (∀ fuel d, d % 7 = 5 → ¬ yearEnd ≤ d + 2 →
        ftdGo p yearEnd (fuel + 1) d = ftdGo p yearEnd fuel (d + 2))
    ∧ (∀ fuel d, d % 7 = 6 → ¬ yearEnd ≤ d + 1 →
        ftdGo p yearEnd (fuel + 1) d = ftdGo p yearEnd fuel (d + 1))
    ∧ (∀ q : Int → Bool, (∀ d, yearStart ≤ d → d < yearEnd → d % 7 < 5 → q d = false) →
        first_trading_date q yearStart yearEnd = none) := by
  have hge := probeSeq_ge yearStart N
  refine ⟨?_, fun k => probeSeq_weekday yearStart k, ?_, ?_, ?_⟩
  · exact ftdGo_complete p yearEnd N yearStart 366 hclosed hopen hin (by omega)
  · intro fuel d h5 h2
    simp only [ftdGo]
    rw [if_neg (by omega : ¬ d % 7 < 5), if_pos h5, if_neg h2]
  · intro fuel d h6 h2
    simp only [ftdGo]
    rw [if_neg (by omega : ¬ d % 7 < 5), if_neg (by omega : ¬ d % 7 = 5), if_neg h2]
  · intro q hq
    cases hres : first_trading_date q yearStart yearEnd with
    | none => rfl
    | some r =>
        have hs := ftdGo_sound q yearEnd 366 yearStart r (by omega) hres
        have hcontra := hq r hs.2.2.1 hs.2.2.2 hs.2.1
        rw [hs.1] at hcontra
        exact Bool.noConfusion hcontra

/-- Probe for the C2 witness: closed before day 2, open from day 2 on. -/
def probeC2 : Int → Bool := fun d => decide (2 ≤ d)

theorem first_trading_date_spec_witness :
    first_trading_date probeC2 0 365 = some (probeSeq 0 2)
    ∧ (∀ k, probeSeq 0 k % 7 < 5)
    ∧ (∀ fuel d, d % 7 = 5 → ¬ (365 : Int) ≤ d + 2 →
        ftdGo probeC2 365 (fuel + 1) d = ftdGo probeC2 365 fuel (d + 2))
    ∧ (∀ fuel d, d % 7 = 6 → ¬ (365 : Int) ≤ d + 1 →
        ftdGo probeC2 365 (fuel + 1) d = ftdGo probeC2 365 fuel (d + 1))
    ∧ (∀ q : Int → Bool, (∀ d, (0 : Int) ≤ d → d < 365 → d % 7 < 5 → q d = false) →
        first_trading_date q 0 365 = none) :=
  first_trading_date_spec probeC2 0 365 2 (by omega) (by decide) (by decide) (by decide)

/-- C6: `last_trading_date` walks backward from today: a probed weekday is
returned exactly when the probe reports open on the `(N+1)`-th probed
weekday after `N` closed ones (within the 14-iteration bound); every
probed day is a weekday; Saturday steps back 1 day to a Friday and Sunday
steps back 2 days to a Friday, without probing; any returned day is an
open weekday at or before today; and a probe with no open weekday at or
before today yields `none` (exhaustion). -/
theorem last_trading_date_spec (p : Int → Bool) (today : Int) (N : Nat)
    (hclosed : ∀ k, k < N → p (probeSeqBack today k) = false)
    (hopen : p (probeSeqBack today N) = true)
    (hnear : today - 14 < probeSeqBack today N) :
    last_trading_date p today = some (probeSeqBack today N)
    ∧ (∀ k, probeSeqBack today k % 7 < 5)
    ∧ (∀ fuel d, d % 7 = 5 →
        ltdGo p (fuel + 1) d = ltdGo p fuel (d - 1) ∧ (d - 1) % 7 = 4)
    ∧ (∀ fuel d, d % 7 = 6 →
        ltdGo p (fuel + 1) d = ltdGo p fuel (d - 2) ∧ (d - 2) % 7 = 4)
    ∧ (∀ r, last_trading_date p today = some r → p r = true ∧ r % 7 < 5 ∧ r ≤ today)
    ∧ (∀ q : Int → Bool, (∀ d, d ≤ today → d % 7 < 5 → q d = false) →
        last_trading_date q today = none) := by
  refine ⟨?_, fun k => probeSeqBack_weekday today k, ?_, ?_, ?_, ?_⟩
  · exact ltdGo_complete p N today 14 hclosed hopen (by omega)
  · intro fuel d h5
    refine ⟨?_, by omega⟩
    simp only [ltdGo]
    rw [if_neg (by omega : ¬ d % 7 < 5), if_pos h5]
  · intro fuel d h6
    refine ⟨?_, by omega⟩
    simp only [ltdGo]
    rw [if_neg (by omega : ¬ d % 7 < 5), if_neg (by omega : ¬ d % 7 = 5)]
  · intro r h
    exact ltdGo_sound p 14 today r h
  · intro q hq
    cases hres : last_trading_date q today with
    | none => rfl
    | some r =>
        have hs := ltdGo_sound q 14 today r hres
        have hcontra := hq r hs.2.2 hs.2.1
        rw [hs.1] at hcontra
        exact Bool.noConfusion hcontra

/-- Probe for the C6 witness: open at or before day 2, closed after. -/
def probeC6 : Int → Bool := fun d => decide (d ≤ 2)

theorem last_trading_date_spec_witness :
    last_trading_date probeC6 4 = some (probeSeqBack 4 2)
    ∧ (∀ k, probeSeqBack 4 k % 7 < 5)
    ∧ (∀ fuel d, d % 7 = 5 →
        ltdGo probeC6 (fuel + 1) d = ltdGo probeC6 fuel (d - 1) ∧ (d - 1) % 7 = 4)
    ∧ (∀ fuel d, d % 7 = 6 →
        ltdGo probeC6 (fuel + 1) d = ltdGo probeC6 fuel (d - 2) ∧ (d - 2) % 7 = 4)
    ∧ (∀ r, last_trading_date probeC6 4 = some r → probeC6 r = true ∧ r % 7 < 5 ∧ r ≤ 4)
    ∧ (∀ q : Int → Bool, (∀ d, d ≤ (4 : Int) → d % 7 < 5 → q d = false) →
        last_trading_date q 4 = none) :=
  last_trading_date_spec probeC6 4 2 (by decide) (by decide) (by decide)

/-- C9: for the fixed ordered list of ten pairings, if exactly one pairing
returns malformed data (a JSON decode failure) and the other nine
succeed, the output of `coin` is the join of exactly ten lines in the
original pairing order: the failing pairing yields its failure-annotated
line identifying the failure kind, and every other pairing yields its
success line; one failure never prevents the others from being attempted
and reported. -/
theorem coin_isolation_spec (world : String → CoinResp) (i : Nat) (hi : i < 10)
    (hfail : world (pairings_to_fetch.getD i ("", "")).1 = .jsonError)
    (hsucc : ∀ j, j < 10 → ¬ j = i →
      ∃ cur amt q, world (pairings_to_fetch.getD j ("", "")).1
          = .ok (some ⟨some cur, some amt⟩)
        ∧ ¬ cur = "" ∧ parseDecimal amt = some q) :
    (coinLines world).length = 10
    ∧ coin world = String.intercalate "\n" (coinLines world)
    ∧ (coinLines world).getD i ""
        = "1 " ++ (pairings_to_fetch.getD i ("", "")).2 ++ " ("
          ++ String.mk (((pairings_to_fetch.getD i ("", "")).1.data.splitOn '-').getD 1 [])
          ++ "): Data unavailable (format)"
    ∧ (∀ j, j < 10 → ¬ j = i → ∃ cur q,
        (coinLines world).getD j ""
          = "1 " ++ (pairings_to_fetch.getD j ("", "")).2 ++ " is $" ++ format2f q
            ++ " in " ++ (if cur = "CAD" then ":Canada:" else ":United_States:")
            ++ " (" ++ cur ++ ")") := by
  have hplen : pairings_to_fetch.length = 10 := rfl
  have hlines : ∀ j, j < 10 → (coinLines world).getD j ""
      = coinLine (pairings_to_fetch.getD j ("", "")).1
          (pairings_to_fetch.getD j ("", "")).2
          (world (pairings_to_fetch.getD j ("", "")).1) := by
    intro j hj
    unfold coinLines
    exact getD_map _ pairings_to_fetch j (by rw [hplen]; exact hj) ("", "") ""
  have hlen10 : (coinLines world).length = 10 := by
    unfold coinLines
    rw [List.length_map, hplen]
  refine ⟨hlen10, ?_, ?_, ?_⟩
  · unfold coin
    rw [if_neg (by
      intro h
      rw [h] at hlen10
      exact absurd hlen10 (by decide))]
  · rw [hlines i hi, hfail]
    rfl
  · intro j hj hne
    obtain ⟨cur, amt, q, hw, hcur, hamt⟩ := hsucc j hj hne
    refine ⟨cur, q, ?_⟩
    rw [hlines j hj, hw]
    simp only [coinLine]
    rw [if_neg hcur, hamt]

/-- World for the C9 witness: the third pairing (ADA-USD) returns
malformed JSON, the other nine succeed with amount "1". -/
def worldC9 : String → CoinResp :=
  fun p => if p = "ADA-USD" then .jsonError
    else .ok (some ⟨some "USD", some "1"⟩)

theorem coin_isolation_spec_witness :
    (coinLines worldC9).length = 10
    ∧ coin worldC9 = String.intercalate "\n" (coinLines worldC9)
    ∧ (coinLines worldC9).getD 2 ""
        = "1 " ++ (pairings_to_fetch.getD 2 ("", "")).2 ++ " ("
          ++ String.mk (((pairings_to_fetch.getD 2 ("", "")).1.data.splitOn '-').getD 1 [])
          ++ "): Data unavailable (format)"
    ∧ (∀ j, j < 10 → ¬ j = 2 → ∃ cur q,
        (coinLines worldC9).getD j ""
          = "1 " ++ (pairings_to_fetch.getD j ("", "")).2 ++ " is $" ++ format2f q
            ++ " in " ++ (if cur = "CAD" then ":Canada:" else ":United_States:")
            ++ " (" ++ cur ++ ")") :=
  coin_isolation_spec worldC9 2 (by omega) (by decide) (by
    intro j hj hne
    interval_cases j
    · exact ⟨"USD", "1", 1, by decide, by decide, by decide⟩
    · exact ⟨"USD", "1", 1, by decide, by decide, by decide⟩
    · exact absurd rfl hne
    · exact ⟨"USD", "1", 1, by decide, by decide, by decide⟩
    · exact ⟨"USD", "1", 1, by decide, by decide, by decide⟩
    · exact ⟨"USD", "1", 1, by decide, by decide, by decide⟩
    · exact ⟨"USD", "1", 1, by decide, by decide, by decide⟩
    · exact ⟨"USD", "1", 1, by decide, by decide, by decide⟩
    · exact ⟨"USD", "1", 1, by decide, by decide, by decide⟩
    · exact ⟨"USD", "1", 1, by decide, by decide, by decide⟩)

end BabaMuskBot
